import Mathlib

/-!
Verification of the icon generator `generate_icons.py`.

The script draws, for each requested `size`, a `size × size` RGBA canvas:
an orange filled circle inscribed with a margin, a three-segment white
trend polyline, and a translucent horizontal alert line, then saves the
canvas as a PNG and prints a confirmation line.  The module top level
invokes the renderer for sizes 16, 48 and 128 at three literal paths and
prints a final completion message.

All integer arithmetic of the script is Python `//` (floor division) with
positive literal divisors, which coincides with Lean's `Int` division
(`Int.ediv`) used below.

The Pillow drawing primitives themselves are not part of the repository;
their pixel semantics are modelled from the spec (see `inEllipse` and
`segHit` below): a filled ellipse covers the lattice points inside it, and
a line of width `w` covers the lattice points within distance `w/2` of
the segment.  Drawing replaces pixel values (no alpha blending), matching
`ImageDraw` on an RGBA image.
-/

/-- An RGBA color, components in 0..255. -/
abbrev Color := Nat × Nat × Nat × Nat

/-- A single drawing call issued by `create_icon`. -/
inductive DrawOp where
  | ellipse (x0 y0 x1 y1 : Int) (fill : Color)
  | line (a b : Int × Int) (fill : Color) (width : Int)
deriving DecidableEq

/-- `margin = size // 8` from the source. -/
def margin (size : Int) : Int := size / 8

/-- `line_width = max(2, size // 16)` from the source. -/
def line_width (size : Int) : Int := max 2 (size / 16)

/-- `center = size // 2` from the source. -/
def center (size : Int) : Int := size / 2

/-- The four `points` of the trend polyline, exactly as in the source. -/
def points (size : Int) : List (Int × Int) :=
  [(margin size + size / 6, center size + size / 6),
   (center size - size / 10, center size - size / 10),
   (center size + size / 10, center size),
   (size - margin size - size / 6, center size - size / 4)]

/-- `y_line = center - size // 8` from the source. -/
def y_line (size : Int) : Int := center size - size / 8

/-- Width of the alert line: `max(1, line_width // 2)` from the source. -/
def alertWidth (size : Int) : Int := max 1 (line_width size / 2)

/-- Fill color of the circle: `(255, 152, 0, 255)`. -/
def orange : Color := (255, 152, 0, 255)

/-- Fill color of the trend polyline: `(255, 255, 255, 255)`. -/
def white : Color := (255, 255, 255, 255)

/-- Fill color of the alert line: `(255, 255, 255, 200)`. -/
def translucentWhite : Color := (255, 255, 255, 200)

/-- The sequence of drawing calls issued by `create_icon(size, _)`, in
source order: the filled ellipse on the bounding box
`[margin, margin, size - margin, size - margin]`, one line per
`i in range(len(points) - 1)` joining `points[i]` to `points[i+1]`, and
the horizontal alert line at height `y_line`. -/
def drawOps (size : Int) : List DrawOp :=
  DrawOp.ellipse (margin size) (margin size) (size - margin size) (size - margin size) orange
    :: ((List.range ((points size).length - 1)).map fun i =>
          DrawOp.line ((points size)[i]!) ((points size)[i + 1]!) white (line_width size))
    ++ [DrawOp.line (margin size + size / 8, y_line size)
          (size - margin size - size / 8, y_line size) translucentWhite (alertWidth size)]

/-- Modelled from the spec: the Pillow primitive `draw.ellipse` with
bounding box `[x0, y0, x1, y1]` fills the lattice points inside the
ellipse centred at `((x0+x1)/2, (y0+y1)/2)` with semi-axes `(x1-x0)/2`
and `(y1-y0)/2`.  The membership inequality is cleared of denominators:
`((2px - (x0+x1)) * (y1-y0))² + ((2py - (y0+y1)) * (x1-x0))² ≤ ((x1-x0) * (y1-y0))²`. -/
def inEllipse (x0 y0 x1 y1 px py : Int) : Bool :=
  ((2 * px - (x0 + x1)) * (y1 - y0)) ^ 2 + ((2 * py - (y0 + y1)) * (x1 - x0)) ^ 2
    ≤ ((x1 - x0) * (y1 - y0)) ^ 2

/-- Modelled from the spec: the Pillow primitive `draw.line` from `a` to
`b` with width `w` covers the lattice points at Euclidean distance at
most `w/2` from the segment.  The squared point-to-segment distance is
computed by the usual projection case split, and the comparison
`dist ≤ w/2` is squared and cleared of denominators. -/
def segHit (a b : Int × Int) (w px py : Int) : Bool :=
  let dx := b.1 - a.1
  let dy := b.2 - a.2
  let vx := px - a.1
  let vy := py - a.2
  let dd := dx * dx + dy * dy
  let t := vx * dx + vy * dy
  if t ≤ 0 then 4 * (vx * vx + vy * vy) ≤ w * w
  else if dd ≤ t then 4 * ((px - b.1) * (px - b.1) + (py - b.2) * (py - b.2)) ≤ w * w
  else 4 * ((vx * vx + vy * vy) * dd - t * t) ≤ w * w * dd

/-- Whether a drawing call covers the pixel `(px, py)`. -/
def opCovers : DrawOp → Int → Int → Bool
  | .ellipse x0 y0 x1 y1 _, px, py => inEllipse x0 y0 x1 y1 px py
  | .line a b _ w, px, py => segHit a b w px py

/-- The fill color of a drawing call. -/
def opColor : DrawOp → Color
  | .ellipse _ _ _ _ f => f
  | .line _ _ f _ => f

/-- The final color of pixel `(px, py)` after `create_icon(size, _)` has
issued all its drawing calls on the initially transparent canvas: each
covering call replaces the pixel value, in source order. -/
def renderPixel (size px py : Int) : Color :=
  (drawOps size).foldl (fun c op => bif opCovers op px py then opColor op else c) (0, 0, 0, 0)

/-- Modelled from the spec: `img.save(filename, 'PNG')` encodes the
canvas deterministically (standard PNG of the raster, no timestamp or
randomness in the stream), so the written file is a pure function of the
pixel grid; it is represented here by the raster itself in row-major
order. -/
def fileBytes (size : Int) : List Color :=
  (List.range size.toNat).flatMap fun y =>
    (List.range size.toNat).map fun x => renderPixel size (x : Int) (y : Int)

/-- The observable side effects of the script: the files written so far
and the lines printed to standard output. -/
structure IconEffects where
  fs : String → Option (List Color)
  stdout : List String

/-- `create_icon(size, filename)`: renders the canvas (a function of
`size` alone), writes its encoding at `filename` (overwriting any
existing file), and prints `"Created <filename>"`. -/
def create_icon (size : Int) (filename : String) (st : IconEffects) : IconEffects :=
  { fs := fun q => if q = filename then some (fileBytes size) else st.fs q,
    stdout := st.stdout ++ ["Created " ++ filename] }

/-- First literal output path of the script. -/
def icon16Path : String := "C:\\Users\\USER\\tradingview-alert-extension\\icons\\icon16.png"

/-- Second literal output path of the script. -/
def icon48Path : String := "C:\\Users\\USER\\tradingview-alert-extension\\icons\\icon48.png"

/-- Third literal output path of the script. -/
def icon128Path : String := "C:\\Users\\USER\\tradingview-alert-extension\\icons\\icon128.png"

/-- The module top level: three `create_icon` calls with literal sizes
and paths, in order, then the final completion message. -/
def program (st : IconEffects) : IconEffects :=
  let st1 := create_icon 16 icon16Path st
  let st2 := create_icon 48 icon48Path st1
  let st3 := create_icon 128 icon128Path st2
  { st3 with stdout := st3.stdout ++ ["All icons created successfully!"] }

/-- `drawOps` unfolded to its five drawing calls. -/
theorem drawOps_eq (s : Int) :
    drawOps s =
      [DrawOp.ellipse (s / 8) (s / 8) (s - s / 8) (s - s / 8) orange,
       DrawOp.line (s / 8 + s / 6, s / 2 + s / 6) (s / 2 - s / 10, s / 2 - s / 10)
         white (max 2 (s / 16)),
       DrawOp.line (s / 2 - s / 10, s / 2 - s / 10) (s / 2 + s / 10, s / 2)
         white (max 2 (s / 16)),
       DrawOp.line (s / 2 + s / 10, s / 2) (s - s / 8 - s / 6, s / 2 - s / 4)
         white (max 2 (s / 16)),
       DrawOp.line (s / 8 + s / 8, s / 2 - s / 8) (s - s / 8 - s / 8, s / 2 - s / 8)
         translucentWhite (max 1 (max 2 (s / 16) / 2))] := rfl

example : renderPixel 16 8 8 = (255, 255, 255, 255) := by decide
example : renderPixel 30 15 15 = (255, 152, 0, 255) := by decide
example : renderPixel 16 0 0 = (0, 0, 0, 0) := by decide
example : renderPixel 16 15 15 = (0, 0, 0, 0) := by decide
example : renderPixel 29 14 14 = (255, 255, 255, 255) := by decide

/-- If `0 ≤ g` and `x ≤ -g` then `g² ≤ x²`. -/
theorem sq_le_sq_of_le_neg {g x : Int} (hg : 0 ≤ g) (h : x ≤ -g) : g * g ≤ x * x := by
  nlinarith

/-- If `0 ≤ g ≤ x` then `g² ≤ x²`. -/
theorem sq_le_sq_of_ge {g x : Int} (hg : 0 ≤ g) (h : g ≤ x) : g * g ≤ x * x := by
  nlinarith

/-- A width-`w` line misses any pixel separated from the segment's
bounding box by gaps `xg`, `yg` with `w² < 4(xg² + yg²)`: the nearest
point of the segment keeps both coordinate gaps, so the squared distance
is at least `xg² + yg²`. -/
theorem segHit_false_of_gap (a b : Int × Int) (w px py xg yg : Int)
    (hxg : 0 ≤ xg) (hyg : 0 ≤ yg)
    (hx : xg = 0 ∨ (xg ≤ a.1 - px ∧ xg ≤ b.1 - px) ∨ (xg ≤ px - a.1 ∧ xg ≤ px - b.1))
    (hy : yg = 0 ∨ (yg ≤ a.2 - py ∧ yg ≤ b.2 - py) ∨ (yg ≤ py - a.2 ∧ yg ≤ py - b.2))
    (hgap : w * w < 4 * (xg * xg + yg * yg)) :
    segHit a b w px py = false := by
  unfold segHit
  dsimp only
  split
  · -- nearest point is the endpoint `a`
    simp only [decide_eq_false_iff_not]
    intro hcon
    have hx2 : xg * xg ≤ (px - a.1) * (px - a.1) := by
      rcases hx with h | ⟨h1, h2⟩ | ⟨h1, h2⟩
      · subst h; simpa using mul_self_nonneg (px - a.1)
      · exact sq_le_sq_of_le_neg hxg (by omega)
      · exact sq_le_sq_of_ge hxg h1
    have hy2 : yg * yg ≤ (py - a.2) * (py - a.2) := by
      rcases hy with h | ⟨h1, h2⟩ | ⟨h1, h2⟩
      · subst h; simpa using mul_self_nonneg (py - a.2)
      · exact sq_le_sq_of_le_neg hyg (by omega)
      · exact sq_le_sq_of_ge hyg h1
    linarith
  · split
    · -- nearest point is the endpoint `b`
      simp only [decide_eq_false_iff_not]
      intro hcon
      have hx2 : xg * xg ≤ (px - b.1) * (px - b.1) := by
        rcases hx with h | ⟨h1, h2⟩ | ⟨h1, h2⟩
        · subst h; simpa using mul_self_nonneg (px - b.1)
        · exact sq_le_sq_of_le_neg hxg (by omega)
        · exact sq_le_sq_of_ge hxg h2
      have hy2 : yg * yg ≤ (py - b.2) * (py - b.2) := by
        rcases hy with h | ⟨h1, h2⟩ | ⟨h1, h2⟩
        · subst h; simpa using mul_self_nonneg (py - b.2)
        · exact sq_le_sq_of_le_neg hyg (by omega)
        · exact sq_le_sq_of_ge hyg h2
      linarith
    · -- nearest point is interior: the foot of the perpendicular
      rename_i h1 h2
      simp only [decide_eq_false_iff_not]
      intro hcon
      rw [not_le] at h1 h2
      set dx := b.1 - a.1 with hdx
      set dy := b.2 - a.2 with hdy
      set vx := px - a.1 with hvx
      set vy := py - a.2 with hvy
      set dd := dx * dx + dy * dy with hdd
      set t := vx * dx + vy * dy with ht
      have hddpos : 0 < dd := lt_trans h1 h2
      have hid : (vx * dd - t * dx) * (vx * dd - t * dx)
          + (vy * dd - t * dy) * (vy * dd - t * dy)
          = ((vx * vx + vy * vy) * dd - t * t) * dd := by
        rw [hdd, ht]; ring
      have hA2 : (xg * dd) * (xg * dd) ≤ (vx * dd - t * dx) * (vx * dd - t * dx) := by
        have hsplit : vx * dd - t * dx = (dd - t) * vx + t * (vx - dx) := by ring
        have hxgdd : 0 ≤ xg * dd := mul_nonneg hxg hddpos.le
        rcases hx with h | ⟨ha, hb⟩ | ⟨ha, hb⟩
        · subst h; simpa using mul_self_nonneg (vx * dd - t * dx)
        · -- a.1 and b.1 both at least px + xg
          have hva : vx ≤ -xg := by omega
          have hvb : vx - dx ≤ -xg := by omega
          have e1 : (dd - t) * vx ≤ (dd - t) * (-xg) :=
            mul_le_mul_of_nonneg_left hva (by linarith)
          have e2 : t * (vx - dx) ≤ t * (-xg) :=
            mul_le_mul_of_nonneg_left hvb (by linarith)
          have e3 : (dd - t) * (-xg) + t * (-xg) = -(xg * dd) := by ring
          exact sq_le_sq_of_le_neg hxgdd (by rw [hsplit]; linarith)
        · -- a.1 and b.1 both at most px - xg
          have hva : xg ≤ vx := by omega
          have hvb : xg ≤ vx - dx := by omega
          have e1 : (dd - t) * xg ≤ (dd - t) * vx :=
            mul_le_mul_of_nonneg_left hva (by linarith)
          have e2 : t * xg ≤ t * (vx - dx) :=
            mul_le_mul_of_nonneg_left hvb (by linarith)
          have e3 : (dd - t) * xg + t * xg = xg * dd := by ring
          exact sq_le_sq_of_ge hxgdd (by rw [hsplit]; linarith)
      have hB2 : (yg * dd) * (yg * dd) ≤ (vy * dd - t * dy) * (vy * dd - t * dy) := by
        have hsplit : vy * dd - t * dy = (dd - t) * vy + t * (vy - dy) := by ring
        have hygdd : 0 ≤ yg * dd := mul_nonneg hyg hddpos.le
        rcases hy with h | ⟨ha, hb⟩ | ⟨ha, hb⟩
        · subst h; simpa using mul_self_nonneg (vy * dd - t * dy)
        · have hva : vy ≤ -yg := by omega
          have hvb : vy - dy ≤ -yg := by omega
          have e1 : (dd - t) * vy ≤ (dd - t) * (-yg) :=
            mul_le_mul_of_nonneg_left hva (by linarith)
          have e2 : t * (vy - dy) ≤ t * (-yg) :=
            mul_le_mul_of_nonneg_left hvb (by linarith)
          have e3 : (dd - t) * (-yg) + t * (-yg) = -(yg * dd) := by ring
          exact sq_le_sq_of_le_neg hygdd (by rw [hsplit]; linarith)
        · have hva : yg ≤ vy := by omega
          have hvb : yg ≤ vy - dy := by omega
          have e1 : (dd - t) * yg ≤ (dd - t) * vy :=
            mul_le_mul_of_nonneg_left hva (by linarith)
          have e2 : t * yg ≤ t * (vy - dy) :=
            mul_le_mul_of_nonneg_left hvb (by linarith)
          have e3 : (dd - t) * yg + t * yg = yg * dd := by ring
          exact sq_le_sq_of_ge hygdd (by rw [hsplit]; linarith)
      have hsum := add_le_add hA2 hB2
      rw [hid] at hsum
      have hmul := mul_le_mul_of_nonneg_right hcon (le_of_lt hddpos)
      have hgapm := mul_lt_mul_of_pos_right hgap (mul_pos hddpos hddpos)
      have q1 : (xg * dd) * (xg * dd) = (xg * xg) * (dd * dd) := by ring
      have q2 : (yg * dd) * (yg * dd) = (yg * yg) * (dd * dd) := by ring
      have q3 : 4 * (xg * xg + yg * yg) * (dd * dd)
          = 4 * ((xg * xg) * (dd * dd)) + 4 * ((yg * yg) * (dd * dd)) := by ring
      have q4 : 4 * ((vx * vx + vy * vy) * dd - t * t) * dd
          = 4 * (((vx * vx + vy * vy) * dd - t * t) * dd) := by ring
      have q5 : w * w * dd * dd = (w * w) * (dd * dd) := by ring
      linarith

/-- Convenience form of `segHit_false_of_gap` with only a horizontal gap. -/
theorem segHit_false_xgap (x1 y1 x2 y2 w px py xg : Int)
    (hw : 0 ≤ w) (hxg : 0 ≤ xg)
    (hx : (xg ≤ x1 - px ∧ xg ≤ x2 - px) ∨ (xg ≤ px - x1 ∧ xg ≤ px - x2))
    (hlin : w < 2 * xg) : segHit (x1, y1) (x2, y2) w px py = false :=
  segHit_false_of_gap (x1, y1) (x2, y2) w px py xg 0 hxg le_rfl (Or.inr hx) (Or.inl rfl)
    (by nlinarith)

/-- Convenience form of `segHit_false_of_gap` with only a vertical gap. -/
theorem segHit_false_ygap (x1 y1 x2 y2 w px py yg : Int)
    (hw : 0 ≤ w) (hyg : 0 ≤ yg)
    (hy : (yg ≤ y1 - py ∧ yg ≤ y2 - py) ∨ (yg ≤ py - y1 ∧ yg ≤ py - y2))
    (hlin : w < 2 * yg) : segHit (x1, y1) (x2, y2) w px py = false :=
  segHit_false_of_gap (x1, y1) (x2, y2) w px py 0 yg le_rfl hyg (Or.inl rfl) (Or.inr hy)
    (by nlinarith)

/-- If no drawing call covers a pixel, it keeps the transparent
background `(0,0,0,0)`. -/
theorem renderPixel_none (s px py : Int)
    (h1 : inEllipse (s / 8) (s / 8) (s - s / 8) (s - s / 8) px py = false)
    (h2 : segHit (s / 8 + s / 6, s / 2 + s / 6) (s / 2 - s / 10, s / 2 - s / 10)
      (max 2 (s / 16)) px py = false)
    (h3 : segHit (s / 2 - s / 10, s / 2 - s / 10) (s / 2 + s / 10, s / 2)
      (max 2 (s / 16)) px py = false)
    (h4 : segHit (s / 2 + s / 10, s / 2) (s - s / 8 - s / 6, s / 2 - s / 4)
      (max 2 (s / 16)) px py = false)
    (h5 : segHit (s / 8 + s / 8, s / 2 - s / 8) (s - s / 8 - s / 8, s / 2 - s / 8)
      (max 1 (max 2 (s / 16) / 2)) px py = false) :
    renderPixel s px py = (0, 0, 0, 0) := by
  unfold renderPixel
  rw [drawOps_eq]
  simp [opCovers, h1, h2, h3, h4, h5]

/-- A pixel covered by the circle fill and by no later line keeps the
orange fill color. -/
theorem renderPixel_orange (s px py : Int)
    (h1 : inEllipse (s / 8) (s / 8) (s - s / 8) (s - s / 8) px py = true)
    (h2 : segHit (s / 8 + s / 6, s / 2 + s / 6) (s / 2 - s / 10, s / 2 - s / 10)
      (max 2 (s / 16)) px py = false)
    (h3 : segHit (s / 2 - s / 10, s / 2 - s / 10) (s / 2 + s / 10, s / 2)
      (max 2 (s / 16)) px py = false)
    (h4 : segHit (s / 2 + s / 10, s / 2) (s - s / 8 - s / 6, s / 2 - s / 4)
      (max 2 (s / 16)) px py = false)
    (h5 : segHit (s / 8 + s / 8, s / 2 - s / 8) (s - s / 8 - s / 8, s / 2 - s / 8)
      (max 1 (max 2 (s / 16) / 2)) px py = false) :
    renderPixel s px py = (255, 152, 0, 255) := by
  unfold renderPixel
  rw [drawOps_eq]
  simp [opCovers, opColor, h1, h2, h3, h4, h5, orange]

/-- The middle trend segment, from `(c - t, c - t)` to `(c + t, c)`,
misses the pixel `(c, c)` whenever `3 ≤ t` and `4w ≤ 3t`: the foot of
the perpendicular is interior and the squared distance is `t²/5`. -/
theorem segHit_false_midseg (c t w : Int) (ht : 3 ≤ t) (hw : 2 ≤ w) (h43 : 4 * w ≤ 3 * t) :
    segHit (c - t, c - t) (c + t, c) w c c = false := by
  unfold segHit
  dsimp only
  have e1 : c + t - (c - t) = 2 * t := by ring
  have e2 : c - (c - t) = t := by ring
  rw [e1, e2]
  have hb1 : ¬ (t * (2 * t) + t * t ≤ 0) := by nlinarith
  rw [if_neg hb1]
  have hb2 : ¬ (2 * t * (2 * t) + t * t ≤ t * (2 * t) + t * t) := by nlinarith
  rw [if_neg hb2]
  simp only [decide_eq_false_iff_not]
  intro hcon
  have hsq : 16 * (w * w) ≤ 9 * (t * t) := by nlinarith
  nlinarith

/-- Arithmetic core of `inEllipse_center`: an offset of at most half a
pixel from the centre stays inside a circle of radius at least one. -/
theorem center_aux {A e : Int} (hA : 2 ≤ A) (he : e * e ≤ 1) :
    (e * A) ^ 2 + (e * A) ^ 2 ≤ (A * A) ^ 2 := by
  have q1 : (e * A) ^ 2 = (e * e) * (A * A) := by ring
  have q2 : (A * A) ^ 2 = (A * A) * (A * A) := by ring
  have p1 : (e * e) * (A * A) ≤ 1 * (A * A) :=
    mul_le_mul_of_nonneg_right he (mul_self_nonneg A)
  have p2 : 2 * 2 ≤ A * A := sq_le_sq_of_ge (by linarith) hA
  have p3 : 4 * (A * A) ≤ (A * A) * (A * A) :=
    mul_le_mul_of_nonneg_right (by linarith) (mul_self_nonneg A)
  linarith

/-- Arithmetic core of `inEllipse_corner_false`: a point whose offsets
from the centre both dominate the radius lies outside the circle. -/
theorem corner_aux {A e f : Int} (hA : 1 ≤ A) (he : A * A ≤ e * e) (hf : A * A ≤ f * f)
    (hcon : (e * A) ^ 2 + (f * A) ^ 2 ≤ (A * A) ^ 2) : False := by
  have q1 : (e * A) ^ 2 = (e * e) * (A * A) := by ring
  have q2 : (f * A) ^ 2 = (f * f) * (A * A) := by ring
  have q3 : (A * A) ^ 2 = (A * A) * (A * A) := by ring
  have hAA : 0 < A * A := mul_pos (by linarith) (by linarith)
  have p1 : (A * A) * (A * A) ≤ (e * e) * (A * A) :=
    mul_le_mul_of_nonneg_right he hAA.le
  have p2 : (A * A) * (A * A) ≤ (f * f) * (A * A) :=
    mul_le_mul_of_nonneg_right hf hAA.le
  have p3 : 0 < (A * A) * (A * A) := mul_pos hAA hAA
  linarith

/-- The circle fill covers the exact-center pixel `(s/2, s/2)` whenever
`8 ≤ s`. -/
theorem inEllipse_center (s : Int) (hs : 8 ≤ s) :
    inEllipse (s / 8) (s / 8) (s - s / 8) (s - s / 8) (s / 2) (s / 2) = true := by
  unfold inEllipse
  simp only [decide_eq_true_eq]
  set d8 := s / 8 with hd8
  set d2 := s / 2 with hd2
  have he : 2 * d2 - s = 0 ∨ 2 * d2 - s = -1 := by omega
  have ex : d8 + (s - d8) = s := by ring
  have ey : s - d8 - d8 = s - 2 * d8 := by ring
  rw [ex, ey]
  refine center_aux (by omega) ?_
  rcases he with h | h <;> rw [h] <;> decide

/-- The circle fill misses all four corner pixels whenever the margin is
positive (`8 ≤ s`). -/
theorem inEllipse_corner_false (s px py : Int) (hs : 8 ≤ s)
    (hpx : px = 0 ∨ px = s - 1) (hpy : py = 0 ∨ py = s - 1) :
    inEllipse (s / 8) (s / 8) (s - s / 8) (s - s / 8) px py = false := by
  unfold inEllipse
  simp only [decide_eq_false_iff_not]
  intro hcon
  set d8 := s / 8 with hd8
  have ex : d8 + (s - d8) = s := by ring
  have ey : s - d8 - d8 = s - 2 * d8 := by ring
  rw [ex, ey] at hcon
  have hsq : ∀ p : Int, p = 0 ∨ p = s - 1 →
      (s - 2 * d8) * (s - 2 * d8) ≤ (2 * p - s) * (2 * p - s) := by
    intro p hp
    rcases hp with h | h <;> subst h
    · have q : (2 * 0 - s) * (2 * 0 - s) = s * s := by ring
      rw [q]
      exact sq_le_sq_of_ge (by omega) (by omega)
    · have q : (2 * (s - 1) - s) * (2 * (s - 1) - s) = (s - 2) * (s - 2) := by ring
      rw [q]
      exact sq_le_sq_of_ge (by omega) (by omega)
  exact corner_aux (by omega) (hsq px hpx) (hsq py hpy) hcon

/-- C1 counterexample: at `size = 16` the exact-center pixel
`(16/2, 16/2) = (8, 8)` is overpainted by the middle trend segment and
ends up opaque white, not orange. -/
theorem center_pixel_white_at16 :
    renderPixel 16 (16 / 2) (16 / 2) = (255, 255, 255, 255) ∧
      renderPixel 16 (16 / 2) (16 / 2) ≠ (255, 152, 0, 255) := by decide

/-- C1 (amended): for every `size ≥ 30` the exact-center pixel
`(size/2, size/2)` lies inside the filled circle and is not overpainted
by the trend polyline or the alert line, so it is opaque orange
`(255,152,0,255)`.  (For `16 ≤ size ≤ 29` the middle trend segment
passes within `stroke/2` of the center and overpaints it white.) -/
theorem center_pixel_orange (s : Int) (hs : 30 ≤ s) :
    renderPixel s (s / 2) (s / 2) = (255, 152, 0, 255) := by
  apply renderPixel_orange
  · exact inEllipse_center s (by omega)
  · -- first trend segment: horizontal gap s/10 on the left of the center
    exact segHit_false_xgap _ _ _ _ _ _ _ (s / 10) (by omega) (by omega)
      (Or.inr ⟨by omega, by omega⟩) (by omega)
  · -- middle trend segment: interior distance t/√5 with t = s/10
    exact segHit_false_midseg (s / 2) (s / 10) _ (by omega) (by omega) (by omega)
  · -- last trend segment: horizontal gap s/10 on the right of the center
    exact segHit_false_xgap _ _ _ _ _ _ _ (s / 10) (by omega) (by omega)
      (Or.inl ⟨by omega, by omega⟩) (by omega)
  · -- alert line: vertical gap s/8 below the center
    exact segHit_false_ygap _ _ _ _ _ _ _ (s / 8) (by omega) (by omega)
      (Or.inr ⟨by omega, by omega⟩) (by omega)

/-- Witness for `center_pixel_orange` at `size = 30`. -/
theorem center_pixel_orange_at30 :
    renderPixel 30 (30 / 2) (30 / 2) = (255, 152, 0, 255) :=
  center_pixel_orange 30 (by decide)

/-- C7: whenever the margin is positive (`size ≥ 8`), the four corner
pixels of the canvas are untouched by the circle fill, the trend
polyline and the alert line, and so keep the fully transparent
background `(0,0,0,0)` (in particular alpha `0`). -/
theorem corners_transparent (s : Int) (hs : 8 ≤ s) :
    renderPixel s 0 0 = (0, 0, 0, 0) ∧ renderPixel s (s - 1) 0 = (0, 0, 0, 0) ∧
      renderPixel s 0 (s - 1) = (0, 0, 0, 0) ∧
      renderPixel s (s - 1) (s - 1) = (0, 0, 0, 0) := by
  have htop : ∀ px : Int, px = 0 ∨ px = s - 1 → renderPixel s px 0 = (0, 0, 0, 0) := by
    intro px hpx
    apply renderPixel_none
    · exact inEllipse_corner_false s px 0 hs hpx (Or.inl rfl)
    · exact segHit_false_ygap _ _ _ _ _ _ _ (s / 2 - s / 4) (by omega) (by omega)
        (Or.inl ⟨by omega, by omega⟩) (by omega)
    · exact segHit_false_ygap _ _ _ _ _ _ _ (s / 2 - s / 4) (by omega) (by omega)
        (Or.inl ⟨by omega, by omega⟩) (by omega)
    · exact segHit_false_ygap _ _ _ _ _ _ _ (s / 2 - s / 4) (by omega) (by omega)
        (Or.inl ⟨by omega, by omega⟩) (by omega)
    · exact segHit_false_ygap _ _ _ _ _ _ _ (s / 2 - s / 8) (by omega) (by omega)
        (Or.inl ⟨by omega, by omega⟩) (by omega)
  have hbot : ∀ px : Int, px = 0 ∨ px = s - 1 →
      renderPixel s px (s - 1) = (0, 0, 0, 0) := by
    intro px hpx
    apply renderPixel_none
    · exact inEllipse_corner_false s px (s - 1) hs hpx (Or.inr rfl)
    · exact segHit_false_ygap _ _ _ _ _ _ _ (s - 1 - (s / 2 + s / 6)) (by omega) (by omega)
        (Or.inr ⟨by omega, by omega⟩) (by omega)
    · exact segHit_false_ygap _ _ _ _ _ _ _ (s - 1 - (s / 2 + s / 6)) (by omega) (by omega)
        (Or.inr ⟨by omega, by omega⟩) (by omega)
    · exact segHit_false_ygap _ _ _ _ _ _ _ (s - 1 - (s / 2 + s / 6)) (by omega) (by omega)
        (Or.inr ⟨by omega, by omega⟩) (by omega)
    · exact segHit_false_ygap _ _ _ _ _ _ _ (s - 1 - (s / 2 - s / 8)) (by omega) (by omega)
        (Or.inr ⟨by omega, by omega⟩) (by omega)
  exact ⟨htop 0 (Or.inl rfl), htop (s - 1) (Or.inr rfl),
    hbot 0 (Or.inl rfl), hbot (s - 1) (Or.inr rfl)⟩

/-- Witness for `corners_transparent` at `size = 16`. -/
theorem corners_transparent_at16 :
    renderPixel 16 0 0 = (0, 0, 0, 0) ∧ renderPixel 16 (16 - 1) 0 = (0, 0, 0, 0) ∧
      renderPixel 16 0 (16 - 1) = (0, 0, 0, 0) ∧
      renderPixel 16 (16 - 1) (16 - 1) = (0, 0, 0, 0) :=
  corners_transparent 16 (by decide)

/-- C3: for every positive `size` the derived scalars are
`margin = ⌊size/8⌋`, `stroke = max(2, ⌊size/16⌋)`, `center = ⌊size/2⌋`
(floor division on naturals); for `size = 16` they are `2, 2, 8` with
circle bounding region `[2,2]..[14,14]`, and for `size = 128` they are
`16, 8, 64` with circle bounding region `[16,16]..[112,112]`. -/
theorem derived_scalars (n : Nat) (_hn : 0 < n) :
    (margin (n : Int) = ((n / 8 : Nat) : Int) ∧
      line_width (n : Int) = ((max 2 (n / 16) : Nat) : Int) ∧
      center (n : Int) = ((n / 2 : Nat) : Int)) ∧
    (margin 16 = 2 ∧ line_width 16 = 2 ∧ center 16 = 8 ∧
      (drawOps 16).head? = some (DrawOp.ellipse 2 2 14 14 orange)) ∧
    (margin 128 = 16 ∧ line_width 128 = 8 ∧ center 128 = 64 ∧
      (drawOps 128).head? = some (DrawOp.ellipse 16 16 112 112 orange)) := by
  refine ⟨⟨?_, ?_, ?_⟩, by decide, by decide⟩
  · simp only [margin]; omega
  · simp only [line_width]; omega
  · simp only [center]; omega

/-- Witness for `derived_scalars` at `size = 16`. -/
theorem derived_scalars_at16 :
    (margin (16 : Nat) = ((16 / 8 : Nat) : Int) ∧
      line_width (16 : Nat) = ((max 2 (16 / 16 : Nat) : Nat) : Int) ∧
      center (16 : Nat) = ((16 / 2 : Nat) : Int)) ∧
    (margin 16 = 2 ∧ line_width 16 = 2 ∧ center 16 = 8 ∧
      (drawOps 16).head? = some (DrawOp.ellipse 2 2 14 14 orange)) ∧
    (margin 128 = 16 ∧ line_width 128 = 8 ∧ center 128 = 64 ∧
      (drawOps 128).head? = some (DrawOp.ellipse 16 16 112 112 orange)) :=
  derived_scalars 16 (by decide)

/-- C4: for every positive `size` the four polyline vertices are
`P0 = (margin + ⌊size/6⌋, center + ⌊size/6⌋)`,
`P1 = (center - ⌊size/10⌋, center - ⌊size/10⌋)`,
`P2 = (center + ⌊size/10⌋, center)`,
`P3 = (size - margin - ⌊size/6⌋, center - ⌊size/4⌋)`, and the drawing
calls after the circle fill start with exactly the three segments
`P0-P1`, `P1-P2`, `P2-P3`, in that order, in opaque white
`(255,255,255,255)` with width `stroke`. -/
theorem trend_polyline (n : Nat) (_hn : 0 < n) :
    points (n : Int) =
      [(margin (n : Int) + ((n / 6 : Nat) : Int), center (n : Int) + ((n / 6 : Nat) : Int)),
       (center (n : Int) - ((n / 10 : Nat) : Int), center (n : Int) - ((n / 10 : Nat) : Int)),
       (center (n : Int) + ((n / 10 : Nat) : Int), center (n : Int)),
       ((n : Int) - margin (n : Int) - ((n / 6 : Nat) : Int),
         center (n : Int) - ((n / 4 : Nat) : Int))] ∧
    ((drawOps (n : Int)).drop 1).take 3 =
      [DrawOp.line ((points (n : Int))[0]!) ((points (n : Int))[1]!)
         (255, 255, 255, 255) (((max 2 (n / 16) : Nat) : Int)),
       DrawOp.line ((points (n : Int))[1]!) ((points (n : Int))[2]!)
         (255, 255, 255, 255) (((max 2 (n / 16) : Nat) : Int)),
       DrawOp.line ((points (n : Int))[2]!) ((points (n : Int))[3]!)
         (255, 255, 255, 255) (((max 2 (n / 16) : Nat) : Int))] := by
  constructor
  · simp only [points, margin, center, List.cons.injEq, Prod.mk.injEq, and_true]
    repeat' apply And.intro
    all_goals omega
  · rw [drawOps_eq]
    simp only [List.drop_succ_cons, List.drop_zero, List.take_succ_cons, List.take_zero,
      List.cons.injEq, and_true, DrawOp.line.injEq, Prod.mk.injEq]
    have hw : ((max 2 (n / 16) : Nat) : Int) = max 2 ((n : Int) / 16) := by omega
    have h0 : (points (n : Int))[0]! = ((n : Int) / 8 + (n : Int) / 6,
        (n : Int) / 2 + (n : Int) / 6) := rfl
    have h1 : (points (n : Int))[1]! = ((n : Int) / 2 - (n : Int) / 10,
        (n : Int) / 2 - (n : Int) / 10) := rfl
    have h2 : (points (n : Int))[2]! = ((n : Int) / 2 + (n : Int) / 10, (n : Int) / 2) := rfl
    have h3 : (points (n : Int))[3]! = ((n : Int) - (n : Int) / 8 - (n : Int) / 6,
        (n : Int) / 2 - (n : Int) / 4) := rfl
    rw [h0, h1, h2, h3, hw]
    simp [white, Prod.mk.injEq]

/-- Witness for `trend_polyline` at `size = 16`. -/
theorem trend_polyline_at16 :
    points (16 : Nat) =
      [(margin (16 : Nat) + ((16 / 6 : Nat) : Int),
         center (16 : Nat) + ((16 / 6 : Nat) : Int)),
       (center (16 : Nat) - ((16 / 10 : Nat) : Int),
         center (16 : Nat) - ((16 / 10 : Nat) : Int)),
       (center (16 : Nat) + ((16 / 10 : Nat) : Int), center (16 : Nat)),
       ((16 : Nat) - margin (16 : Nat) - ((16 / 6 : Nat) : Int),
         center (16 : Nat) - ((16 / 4 : Nat) : Int))] ∧
    ((drawOps (16 : Nat)).drop 1).take 3 =
      [DrawOp.line ((points (16 : Nat))[0]!) ((points (16 : Nat))[1]!)
         (255, 255, 255, 255) (((max 2 (16 / 16 : Nat) : Nat) : Int)),
       DrawOp.line ((points (16 : Nat))[1]!) ((points (16 : Nat))[2]!)
         (255, 255, 255, 255) (((max 2 (16 / 16 : Nat) : Nat) : Int)),
       DrawOp.line ((points (16 : Nat))[2]!) ((points (16 : Nat))[3]!)
         (255, 255, 255, 255) (((max 2 (16 / 16 : Nat) : Nat) : Int))] :=
  trend_polyline 16 (by decide)

/-- C5: for every positive `size` the renderer issues exactly one
further drawing call after the three trend segments: a horizontal
segment at `y_line = center - ⌊size/8⌋`, from `x = margin + ⌊size/8⌋`
to `x = size - margin - ⌊size/8⌋`, in translucent white
`(255,255,255,200)`, of width `max(1, ⌊stroke/2⌋)`. -/
theorem alert_line (n : Nat) (_hn : 0 < n) :
    y_line (n : Int) = center (n : Int) - ((n / 8 : Nat) : Int) ∧
    (drawOps (n : Int)).length = 5 ∧
    (drawOps (n : Int)).drop 4 =
      [DrawOp.line (margin (n : Int) + ((n / 8 : Nat) : Int), y_line (n : Int))
         ((n : Int) - margin (n : Int) - ((n / 8 : Nat) : Int), y_line (n : Int))
         (255, 255, 255, 200) (((max 1 (max 2 (n / 16) / 2) : Nat) : Int))] := by
  refine ⟨by simp only [y_line, center]; omega, rfl, ?_⟩
  rw [drawOps_eq]
  simp only [List.drop_succ_cons, List.drop_zero, List.cons.injEq, and_true,
    DrawOp.line.injEq, Prod.mk.injEq, translucentWhite, y_line, center, margin]
  repeat' apply And.intro
  all_goals first | trivial | omega

/-- Witness for `alert_line` at `size = 16`. -/
theorem alert_line_at16 :
    y_line (16 : Nat) = center (16 : Nat) - ((16 / 8 : Nat) : Int) ∧
    (drawOps (16 : Nat)).length = 5 ∧
    (drawOps (16 : Nat)).drop 4 =
      [DrawOp.line (margin (16 : Nat) + ((16 / 8 : Nat) : Int), y_line (16 : Nat))
         ((16 : Nat) - margin (16 : Nat) - ((16 / 8 : Nat) : Int), y_line (16 : Nat))
         (255, 255, 255, 200) (((max 1 (max 2 (16 / 16 : Nat) / 2) : Nat) : Int))] :=
  alert_line 16 (by decide)

/-- C10: for every `size ≥ 16` the x-coordinates of the four polyline
vertices are strictly increasing, so the trend-line is drawn left to
right with no backtracking. -/
theorem trend_x_increasing (n : Nat) (hn : 16 ≤ n) :
    ((points (n : Int))[0]!).1 < ((points (n : Int))[1]!).1 ∧
      ((points (n : Int))[1]!).1 < ((points (n : Int))[2]!).1 ∧
      ((points (n : Int))[2]!).1 < ((points (n : Int))[3]!).1 := by
  refine ⟨?_, ?_, ?_⟩
  · show margin (n : Int) + (n : Int) / 6 < center (n : Int) - (n : Int) / 10
    simp only [margin, center]; omega
  · show center (n : Int) - (n : Int) / 10 < center (n : Int) + (n : Int) / 10
    simp only [center]; omega
  · show center (n : Int) + (n : Int) / 10 < (n : Int) - margin (n : Int) - (n : Int) / 6
    simp only [margin, center]; omega

/-- Witness for `trend_x_increasing` at `size = 16`. -/
theorem trend_x_increasing_at16 :
    ((points (16 : Nat))[0]!).1 < ((points (16 : Nat))[1]!).1 ∧
      ((points (16 : Nat))[1]!).1 < ((points (16 : Nat))[2]!).1 ∧
      ((points (16 : Nat))[2]!).1 < ((points (16 : Nat))[3]!).1 :=
  trend_x_increasing 16 (by decide)

/-- C2 counterexample: at `size = 0` the renderer performs no size
validation and does not fail: it writes a (degenerate, empty) file at
the given path and prints the normal confirmation line. -/
theorem no_rejection_at_zero :
    (create_icon 0 "icon0.png" ⟨fun _ => none, []⟩).fs "icon0.png" = some [] ∧
      (create_icon 0 "icon0.png" ⟨fun _ => none, []⟩).stdout = ["Created icon0.png"] := by
  constructor
  · show (if "icon0.png" = "icon0.png" then some (fileBytes 0) else none) = some []
    rw [if_pos rfl]
    rfl
  · rfl

/-- C2 (amended): `create_icon` contains no size validation at all; for
`size = 0` it completes normally for any path and prior state, writing
an empty degenerate image and printing the confirmation line, instead of
rejecting the call with an invalid-argument error.  (Behavior for
negative sizes is delegated to the imaging library; the spec leaves the
original behavior for non-positive sizes undefined.) -/
theorem no_size_validation (p : String) (st : IconEffects) :
    (create_icon 0 p st).fs p = some [] ∧
      (create_icon 0 p st).stdout = st.stdout ++ ["Created " ++ p] := by
  constructor
  · show (if p = p then some (fileBytes 0) else st.fs p) = some []
    rw [if_pos rfl]
    rfl
  · rfl

/-- C6: re-running the renderer with identical `(size, output_path)` is
idempotent and deterministic: the second run writes byte-for-byte the
same file contents (the encoding is a pure function of `size`, with no
randomness or timestamps), leaves the file system unchanged, and prints
the same confirmation line again. -/
theorem create_icon_idempotent (size : Int) (p : String) (st : IconEffects) :
    (create_icon size p (create_icon size p st)).fs = (create_icon size p st).fs ∧
      (create_icon size p (create_icon size p st)).stdout =
        (create_icon size p st).stdout ++ ["Created " ++ p] := by
  constructor
  · funext q
    by_cases h : q = p <;> simp [create_icon, h]
  · rfl

/-- C8: the module top level runs the renderer exactly three times, in
order with sizes 16, 48, 128 at the three literal absolute paths; it
prints one `"Created <path>"` line per file, in call order, followed by
exactly one final completion line, and writes exactly the three files. -/
theorem program_output (st : IconEffects) (q : String) :
    (program st).stdout = st.stdout ++
      ["Created " ++ icon16Path, "Created " ++ icon48Path, "Created " ++ icon128Path,
       "All icons created successfully!"] ∧
    (program st).fs q =
      if q = icon128Path then some (fileBytes 128)
      else if q = icon48Path then some (fileBytes 48)
      else if q = icon16Path then some (fileBytes 16)
      else st.fs q := by
  constructor
  · simp [program, create_icon]
  · rfl

/-- C9: the rendered image content is a function of `size` alone: for
any two output paths, the file contents written by
`create_icon(size, p1)` and `create_icon(size, p2)` are identical
(both are `fileBytes size`, which never consults the path). -/
theorem raster_independent_of_path (size : Int) (p1 p2 : String) (st1 st2 : IconEffects) :
    (create_icon size p1 st1).fs p1 = some (fileBytes size) ∧
      (create_icon size p2 st2).fs p2 = some (fileBytes size) ∧
      (create_icon size p1 st1).fs p1 = (create_icon size p2 st2).fs p2 := by
  refine ⟨?_, ?_, ?_⟩ <;> simp [create_icon]
